import Mathlib

/-!
Verification of the SameDayClt trip discovery and multi-source pricing engine.

This file gives a shallow embedding, translated from the Python sources, of:
the flight-offer normalizer of aa_flight_search_tool/search_aa_award_flights.py
(cabin canonicalization and mile-cost parsing inside process_flights), the
duration parser and the outbound/return filters and the trip pairing loop of
find_same_day_trips.py, the two nearest-time matchers and the Turo car-rental
adapter and the per-destination status/update logic and checkpointing main loop
of update_all_pricing.py.  External I/O (HTTP responses, scraped pages, the
spreadsheet) is modelled as data supplied to the embedded functions; machine
floats are modelled as rationals.
-/

namespace SameDayClt

/-- Folds a run of decimal digit characters into a natural number, embedding how
Python interprets a digit substring as an integer value. -/
def digitsToNat (cs : List Char) : Nat :=
  cs.foldl (fun acc c => acc * 10 + (c.toNat - 48)) 0

/-- Embeds Python float(s) on the decimal grammar actually reaching it in
process_flights (digits, digits-dot-digits, dot-digits, digits-dot); none models
the ValueError raised on any other shape. -/
def pyFloat (s : String) : Option ℚ :=
  let cs := s.data
  let ip := cs.takeWhile Char.isDigit
  let rest := cs.drop ip.length
  match rest with
  | [] => if ip = [] then none else some (digitsToNat ip)
  | c :: frac =>
      if c = '.' ∧ frac.all Char.isDigit ∧ ¬(ip = [] ∧ frac = []) then
        some ((digitsToNat ip : ℚ) + (digitsToNat frac : ℚ) / ((10 ^ frac.length : ℕ) : ℚ))
      else none

/-- Embeds miles.replace("K", "") from process_flights
(search_aa_award_flights.py line 77): for the one-character pattern "K",
Python str.replace with the empty replacement removes every occurrence of K. -/
def replaceKEmpty (s : String) : String :=
  String.mk (s.data.filter (fun c => c ≠ 'K'))

/-- Embeds miles_value = float(miles.replace("K", "")) from process_flights
(search_aa_award_flights.py line 77): the stored per-cabin mile cost. -/
def parse_miles_value (miles : String) : Option ℚ :=
  pyFloat (replaceKEmpty miles)

/-- Containment of pat as a contiguous run inside a character list; executable
form of the Python substring test used by the cabin canonicalization. -/
def subRunIn (pat : List Char) : List Char → Bool
  | [] => pat.isEmpty
  | c :: rest => pat.isPrefixOf (c :: rest) || subRunIn pat rest

/-- Python substring containment pat in s. -/
def strIn (pat s : String) : Bool := subRunIn pat.data s.data

/-- Python str.lower() applied character by character, embedding
cabin.lower() on the ASCII labels the scraper produces. -/
def pyLower (s : String) : String := String.mk (s.data.map Char.toLower)

/-- Embeds the cabin-label canonicalization of process_flights
(search_aa_award_flights.py lines 68-76): lowercase the label, then test for
"main", then "first", then "business", in that order; a label containing none
of the three keywords is kept in its lowercased form. -/
def canonicalize_cabin (cabin : String) : String :=
  let c := pyLower cabin
  if strIn "main" c then "main"
  else if strIn "first" c then "first"
  else if strIn "business" c then "business"
  else c

/-- Embeds re.search of the pattern digits-then-x over a character list: at each
position take the maximal digit run; the search succeeds at the first position
whose nonempty run is immediately followed by x (regex backtracking cannot
shorten a maximal digit run, since a proper prefix of it is followed by another
digit, not by x). -/
def searchNumBefore (x : Char) : List Char → Option Nat
  | [] => none
  | c :: rest =>
      let run := (c :: rest).takeWhile Char.isDigit
      if run ≠ [] ∧ ((c :: rest).drop run.length).head? = some x then
        some (digitsToNat run)
      else searchNumBefore x rest

/-- Embeds parse_duration (find_same_day_trips.py lines 138-155): search the
string for a digit group directly followed by H and one directly followed by M;
a missing group contributes 0; the result is hours * 60 + minutes. -/
def parse_duration (s : String) : Nat :=
  (searchNumBefore 'H' s.data).getD 0 * 60 + (searchNumBefore 'M' s.data).getD 0

/-- A flight offer in the normalized shape produced by parse_flight_offer
(find_same_day_trips.py lines 93-135): departure and arrival instants as
minutes on a common timeline, duration in minutes, joined flight numbers,
number of stops, and total price. -/
structure PFlight where
  departTime : ℤ
  arriveTime : ℤ
  durationMinutes : Nat
  flightNumbers : String
  numStops : Nat
  price : ℚ
deriving DecidableEq

/-- Python datetime .hour of a timeline instant given in minutes: the clock
hour of the minutes-of-day remainder; minutes below the hour are discarded by
the integer division. -/
def localHour (t : ℤ) : ℤ := t % 1440 / 60

/-- Embeds filter_outbound_flights (find_same_day_trips.py lines 158-178):
keep the flights whose local departure hour is strictly below max_depart_hour
and whose duration is at most max_duration. -/
def filter_outbound_flights (flights : List PFlight) (max_depart_hour : ℤ)
    (max_duration : Nat) : List PFlight :=
  flights.filter (fun f =>
    localHour f.departTime < max_depart_hour ∧ f.durationMinutes ≤ max_duration)

/-- Embeds filter_return_flights (find_same_day_trips.py lines 181-197):
keep the flights whose local arrival hour lies in the half-open window
[min_arrive_hour, max_arrive_hour) and whose duration is at most
max_duration. -/
def filter_return_flights (flights : List PFlight)
    (min_arrive_hour max_arrive_hour : ℤ) (max_duration : Nat) : List PFlight :=
  flights.filter (fun f =>
    min_arrive_hour ≤ localHour f.arriveTime ∧
      localHour f.arriveTime < max_arrive_hour ∧
      f.durationMinutes ≤ max_duration)

/-- Embeds calculate_ground_time (find_same_day_trips.py lines 200-206):
(return_departure - outbound_arrival).total_seconds() / 3600, with the two
instants in minutes on the common timeline. -/
def calculate_ground_time (outbound_arrival return_departure : ℤ) : ℚ :=
  (((return_departure - outbound_arrival) * 60 : ℤ) : ℚ) / 3600

/-- One emitted same-day trip pairing: the outbound and return flights together
with the derived ground time in hours and the summed flight cost (the
spreadsheet row additionally carries rounded display strings of these
values). -/
structure TripCandidate where
  outbound : PFlight
  ret : PFlight
  groundTimeHours : ℚ
  totalFlightCost : ℚ
deriving DecidableEq

/-- The pairing loop of find_same_day_trips_for_destination
(find_same_day_trips.py lines 254-301): the full cross product of outbound and
return candidates, each pair guarded by ground_time_hours >= min_ground_time. -/
def pair_trips (outbound_flights return_flights : List PFlight)
    (min_ground_time : ℚ) : List TripCandidate :=
  outbound_flights.flatMap (fun o =>
    return_flights.filterMap (fun r =>
      let gt := calculate_ground_time o.arriveTime r.departTime
      if min_ground_time ≤ gt then
        some ⟨o, r, gt, o.price + r.price⟩
      else none))

/-- Embeds find_same_day_trips_for_destination (find_same_day_trips.py lines
221-301) from the point where both searches have returned: filter the two
offer lists, then run the pairing loop (the early returns on an empty filtered
list coincide with pairing over an empty list).  The searches themselves are
network I/O and enter here as the two offer lists. -/
def find_same_day_trips_for_destination
    (outbound_offers return_offers : List PFlight) (min_ground_time : ℚ)
    (max_duration : Nat) (max_depart_hour min_return_hour max_return_hour : ℤ) :
    List TripCandidate :=
  pair_trips
    (filter_outbound_flights outbound_offers max_depart_hour max_duration)
    (filter_return_flights return_offers min_return_hour max_return_hour
      max_duration)
    min_ground_time

/-- An outbound flight departing at 08:59 local time (539 minutes of day). -/
def fl859 : PFlight := ⟨539, 660, 120, "AA859", 0, 100⟩

/-- An outbound flight departing at 09:00 local time (540 minutes of day). -/
def fl900 : PFlight := ⟨540, 660, 120, "AA900", 0, 100⟩

/-- A concrete outbound flight: departs 06:00, arrives 08:00. -/
def wOutFlight : PFlight := ⟨360, 480, 120, "AA1", 0, 100⟩

/-- A concrete return flight: departs 17:00, arrives 18:00. -/
def wRetFlight : PFlight := ⟨1020, 1080, 60, "AA2", 0, 120⟩

/-- The trip candidate that pairing wOutFlight with wRetFlight emits. -/
def wTrip : TripCandidate :=
  ⟨wOutFlight, wRetFlight,
    calculate_ground_time wOutFlight.arriveTime wRetFlight.departTime,
    wOutFlight.price + wRetFlight.price⟩

/-- Status of an Apify actor run as fetch_turo_pricing reads it
(update_all_pricing.py lines 272-311); waiting stands for READY, RUNNING and
every other non-terminal report, which keep the loop polling. -/
inductive RunStatus
  | succeeded
  | failed
  | aborted
  | timedOut
  | waiting
deriving DecidableEq

/-- One vehicle record of the Apify dataset as fetch_turo_pricing reads it:
avgDailyPrice is none when the field is absent or not a dict, some none when
the dict carries no usable amount, and some (some q) when its amount is q. -/
structure Vehicle where
  avgDailyPrice : Option (Option ℚ)
  url : Option String
  vehicleUrl : Option String
  year : String
  make : String
  model : String
deriving DecidableEq

/-- The record fetch_turo_pricing returns on success: the chosen vehicle's
daily price, booking URL and description. -/
structure TuroResult where
  price : ℚ
  url : Option String
  vehicle : String
deriving DecidableEq

/-- Python a or b on optional strings: None and the empty string are falsy. -/
def pyOrStr (a b : Option String) : Option String :=
  match a with
  | none => b
  | some s => if s = "" then b else some s

/-- Python str.strip(): drop leading and trailing whitespace. -/
def pyStrip (s : String) : String :=
  String.mk
    (((s.data.dropWhile Char.isWhitespace).reverse.dropWhile
      Char.isWhitespace).reverse)

/-- The vehicle description built by fetch_turo_pricing (line 306): the
f-string of year, make and model, stripped. -/
def vehicleDescr (v : Vehicle) : String :=
  pyStrip (v.year ++ " " ++ v.make ++ " " ++ v.model)

/-- The dataset-extraction step of fetch_turo_pricing on a SUCCEEDED run
(update_all_pricing.py lines 283-308): take the first vehicle of the result
page, read its avgDailyPrice dict and return its amount together with the
vehicle's URL and description; an empty page, a missing dict, or a missing or
zero amount falls through to the break and yields nothing. -/
def extract_turo_result (vehicles : List Vehicle) : Option TuroResult :=
  match vehicles with
  | [] => none
  | v :: _ =>
      match v.avgDailyPrice with
      | some (some amount) =>
          if amount ≠ 0 then
            some ⟨amount, pyOrStr v.url v.vehicleUrl, vehicleDescr v⟩
          else none
      | _ => none

/-- The polling loop of fetch_turo_pricing (update_all_pricing.py lines
269-314): the observed status sequence (one entry per poll, finitely many
before the 90-second ceiling) drives the loop; SUCCEEDED extracts from the
dataset, FAILED, ABORTED and TIMED-OUT return nothing, any other status keeps
polling, and an exhausted sequence is the loop's own timeout. -/
def fetch_turo_pricing (statuses : List RunStatus) (vehicles : List Vehicle) :
    Option TuroResult :=
  match statuses with
  | [] => none
  | s :: rest =>
      match s with
      | .succeeded => extract_turo_result vehicles
      | .failed => none
      | .aborted => none
      | .timedOut => none
      | .waiting => fetch_turo_pricing rest vehicles

/-- The optional daily-price amount of a vehicle record. -/
def vehicleAmount (v : Vehicle) : Option ℚ := v.avgDailyPrice.join

/-- First vehicle of a result page that violates the requested ascending
order: priced 50, listed before a cheaper one. -/
def cexV1 : Vehicle :=
  ⟨some (some 50), some "turo.example/v1", none, "2020", "Toyota", "Corolla"⟩

/-- Second vehicle of that page, priced 30. -/
def cexV2 : Vehicle :=
  ⟨some (some 30), some "turo.example/v2", none, "2019", "Honda", "Fit"⟩

/-- The per-leg award result of fetch_award_pricing (update_all_pricing.py
lines 184-209): the Main and First mile costs read from the matched flight;
either may be absent on the flight record. -/
structure AwardMiles where
  main : Option ℚ
  first : Option ℚ
deriving DecidableEq

/-- What the three pricing sources returned for one destination; the network
and browser calls of update_pricing_for_trip enter the embedded step as this
data.  turoExc models an exception escaping the Turo block's try
(update_all_pricing.py lines 455-483). -/
structure Outcomes where
  cashOut : Option ℚ
  cashRet : Option ℚ
  awardOut : Option AwardMiles
  awardRet : Option AwardMiles
  turo : Option TuroResult
  turoExc : Bool
deriving DecidableEq

/-- The run flags of update_all_pricing.py: the three skip switches and
whether an Apify token was supplied (the Turo stage runs only when not
skipped and a token is present, line 449). -/
structure RunConfig where
  skipCash : Bool
  skipAwards : Bool
  skipTuro : Bool
  hasApifyToken : Bool
deriving DecidableEq

/-- Python truthiness of an optional price: None and 0.0 are falsy. -/
def truthyQ (q : Option ℚ) : Bool :=
  match q with
  | none => false
  | some x => decide (x ≠ 0)

/-- The cash token appended to status_parts (update_all_pricing.py lines
405-410). -/
def cashStatusToken (o : Outcomes) : String :=
  if truthyQ o.cashOut && truthyQ o.cashRet then "Cash OK"
  else if truthyQ o.cashOut || truthyQ o.cashRet then "Cash Partial"
  else "Cash Failed"

/-- The award token appended to status_parts (lines 440-446); the returned
award dict always has two keys, so it is truthy exactly when present. -/
def awardStatusToken (o : Outcomes) : String :=
  if o.awardOut.isSome && o.awardRet.isSome then "Award OK"
  else if o.awardOut.isSome || o.awardRet.isSome then "Award Partial"
  else "Award: No availability"

/-- The turo token appended to status_parts (lines 469-483). -/
def turoStatusToken (o : Outcomes) : String :=
  if o.turoExc then "Turo Error"
  else if o.turo.isSome then "Turo OK"
  else "Turo Failed"

/-- status_parts as built by update_pricing_for_trip (lines 379-483): one
token per attempted source, in source order cash, award, car; a skipped
source appends nothing. -/
def statusParts (cfg : RunConfig) (o : Outcomes) : List String :=
  (if !cfg.skipCash then [cashStatusToken o] else []) ++
  (if !cfg.skipAwards then [awardStatusToken o] else []) ++
  (if !cfg.skipTuro && cfg.hasApifyToken then [turoStatusToken o] else [])

/-- The composite Pricing Status value (line 488): the tokens joined with the
vertical-bar separator, or No updates when nothing was attempted. -/
def pricingStatusString (cfg : RunConfig) (o : Outcomes) : String :=
  if (statusParts cfg o).isEmpty then "No updates"
  else String.intercalate " | " (statusParts cfg o)

/-- A spreadsheet award-miles cell after an update: either the matched
flight's (possibly absent) mile cost or the No Reward Available text
(lines 419-424). -/
inductive AwardCell
  | miles (q : Option ℚ)
  | noReward
deriving DecidableEq

/-- The award cell written for one leg and cabin: the matched flight's cost
when the fetch returned, the sentinel text otherwise. -/
def awardCellOf (a : Option AwardMiles) (f : AwardMiles → Option ℚ) : AwardCell :=
  match a with
  | some m => AwardCell.miles (f m)
  | none => AwardCell.noReward

/-- One row of the destination dataset with the pricing columns ensured by
initialize_spreadsheet (update_all_pricing.py lines 325-360); a cell never
written is none. -/
structure Row where
  destination : String
  city : String
  departClt : String
  departDest : String
  arriveDest : String
  cashOut : Option ℚ
  cashRet : Option ℚ
  cashTotal : Option ℚ
  awardOutMain : Option AwardCell
  awardOutFirst : Option AwardCell
  awardRetMain : Option AwardCell
  awardRetFirst : Option AwardCell
  turoPrice : Option ℚ
  turoVehicle : Option String
  turoUrl : Option String
  lastUpdated : Option String
  pricingDate : Option String
  pricingStatus : Option String
deriving DecidableEq

/-- Embeds update_pricing_for_trip (update_all_pricing.py lines 363-494): the
row after the updates dict is applied in one sweep (lines 490-492) — each
attempted source writes its cells, a found cash leg writes its price, both
cash legs found write the total, the award stage always writes its four cells
(values or the sentinel), a successful Turo fetch writes its three cells, and
the metadata and composite status are always written. -/
def update_pricing_for_trip (cfg : RunConfig) (o : Outcomes)
    (searchDate now : String) (row : Row) : Row :=
  let r1 :=
    if cfg.skipCash then row else
      { row with
        cashOut := if truthyQ o.cashOut then o.cashOut else row.cashOut
        cashRet := if truthyQ o.cashRet then o.cashRet else row.cashRet
        cashTotal :=
          if truthyQ o.cashOut && truthyQ o.cashRet then
            some (o.cashOut.getD 0 + o.cashRet.getD 0)
          else row.cashTotal }
  let r2 :=
    if cfg.skipAwards then r1 else
      { r1 with
        awardOutMain := some (awardCellOf o.awardOut AwardMiles.main)
        awardOutFirst := some (awardCellOf o.awardOut AwardMiles.first)
        awardRetMain := some (awardCellOf o.awardRet AwardMiles.main)
        awardRetFirst := some (awardCellOf o.awardRet AwardMiles.first) }
  let r3 :=
    if cfg.skipTuro || !cfg.hasApifyToken then r2
    else if o.turoExc then r2
    else
      match o.turo with
      | some tr =>
          { r2 with
            turoPrice := some tr.price
            turoVehicle := some tr.vehicle
            turoUrl := tr.url }
      | none => r2
  { r3 with
    lastUpdated := some now
    pricingDate := some searchDate
    pricingStatus := some (pricingStatusString cfg o) }

/-- The step the main loop applies to row idx: fetch that destination's
outcomes (external I/O, supplied as oc) and apply update_pricing_for_trip. -/
def processFn (cfg : RunConfig) (oc : Nat → Outcomes)
    (searchDate now : String) : Nat → Row → Row :=
  fun idx row => update_pricing_for_trip cfg (oc idx) searchDate now row

/-- Replace the row at absolute position target (positions counted from j)
with its processed version: the in-place row update of one loop body
(update_all_pricing.py lines 585-589 via lines 490-492). -/
def updateRowAt (p : Nat → Row → Row) (target : Nat) :
    Nat → List Row → List Row
  | _, [] => []
  | j, r :: rs => (if j = target then p j r else r) :: updateRowAt p target (j + 1) rs

/-- The main processing loop of update_all_pricing.py (lines 583-601):
process each destination index in order, saving the whole dataset after each
one; the first component is the final dataset, the second collects the
checkpoint written after each destination (df.to_excel, line 592). -/
def mainLoop (p : Nat → Row → Row) :
    Nat → Nat → List Row → List Row × List (List Row)
  | _, 0, df => (df, [])
  | i, Nat.succ k, df =>
      let df1 := updateRowAt p i 0 df
      let rest := mainLoop p (i + 1) k df1
      (rest.1, df1 :: rest.2)

/-- The whole pricing run over a dataset: iterate from index 0 over every
row. -/
def pricingRun (p : Nat → Row → Row) (df : List Row) :
    List Row × List (List Row) :=
  mainLoop p 0 df.length df

/-- The dataset with the rows at indices below n processed (positions counted
from j) and the rest untouched: the intended content of the checkpoint
written after the n-th destination. -/
def processedUpTo (p : Nat → Row → Row) (n : Nat) : Nat → List Row → List Row
  | _, [] => []
  | j, r :: rs => (if j < n then p j r else r) :: processedUpTo p n (j + 1) rs

/-- A fresh, never-priced spreadsheet row for Atlanta. -/
def wRow1 : Row :=
  ⟨"ATL", "ATL Atlanta", "05:30", "17:14", "06:48", none, none, none, none,
    none, none, none, none, none, none, none, none, none⟩

/-- A fresh, never-priced spreadsheet row for Miami. -/
def wRow2 : Row :=
  ⟨"MIA", "MIA Miami", "06:00", "18:30", "08:05", none, none, none, none,
    none, none, none, none, none, none, none, none, none⟩

/-- A concrete per-destination outcome: both cash legs found, no award
availability, no Turo result. -/
def wOutcome : Outcomes := ⟨some 100, some 120, none, none, none, false⟩

/-- An Amadeus flight offer as find_flight_by_time reads it
(update_all_pricing.py lines 100-113): the departure clock time of the first
segment of the first itinerary, the itinerary's segment count, and the total
price. -/
structure Offer where
  depHour : Nat
  depMin : Nat
  numSegments : Nat
  price : ℚ
deriving DecidableEq

/-- dep_minutes = dep_hour * 60 + dep_min (line 106). -/
def offerDepMinutes (o : Offer) : Nat := o.depHour * 60 + o.depMin

/-- diff = abs(dep_minutes - target_minutes) (line 109). -/
def offerDiff (o : Offer) (targetMinutes : Nat) : Nat :=
  ((offerDepMinutes o : ℤ) - (targetMinutes : ℤ)).natAbs

/-- The running best of find_flight_by_time: best_match_diff, best_is_direct
and best_match_price (lines 96-98); none models the initial state (price
None, diff infinite, direct False), which any in-window offer beats. -/
structure BestMatch where
  diff : Nat
  isDirect : Bool
  price : ℚ
deriving DecidableEq

/-- The update condition of find_flight_by_time (lines 119-121): strictly
closer time, or same time and newly direct, or same time, same directness and
strictly cheaper. -/
def better_match (diff : Nat) (isDirect : Bool) (price : ℚ) (b : BestMatch) :
    Bool :=
  decide (diff < b.diff) ||
  (decide (diff = b.diff) && (isDirect && !b.isDirect)) ||
  (decide (diff = b.diff) && (isDirect == b.isDirect) && decide (price < b.price))

/-- One iteration of the find_flight_by_time loop (lines 100-124). -/
def step_best (targetMinutes maxDiff : Nat) (b : Option BestMatch)
    (o : Offer) : Option BestMatch :=
  let diff := offerDiff o targetMinutes
  let isDirect := o.numSegments == 1
  if diff ≤ maxDiff then
    match b with
    | none => some ⟨diff, isDirect, o.price⟩
    | some best =>
        if better_match diff isDirect o.price best then
          some ⟨diff, isDirect, o.price⟩
        else some best
  else b

/-- Embeds find_flight_by_time (update_all_pricing.py lines 79-126): fold the
update over the offer list and return the best match's price, if any. -/
def find_flight_by_time (offers : List Offer) (targetMinutes maxDiff : Nat) :
    Option ℚ :=
  (offers.foldl (step_best targetMinutes maxDiff) none).map BestMatch.price

/-- The selection key the loop minimizes: time difference, then directness
(direct ranks 0, with stops ranks 1), then price, ordered lexicographically. -/
abbrev MatchKey : Type := ℕ ×ₗ (ℕ ×ₗ ℚ)

/-- Rank of the directness flag inside the key. -/
def dirRank (b : Bool) : Nat := if b then 0 else 1

/-- Build a key from a candidate's diff, directness and price. -/
def keyOf (diff : Nat) (isDirect : Bool) (price : ℚ) : MatchKey :=
  toLex (diff, toLex (dirRank isDirect, price))

/-- The key of a running best state. -/
def bestKey (b : BestMatch) : MatchKey := keyOf b.diff b.isDirect b.price

/-- The key of an offer for a given target. -/
def offerKey (o : Offer) (t : Nat) : MatchKey :=
  keyOf (offerDiff o t) (o.numSegments == 1) o.price

/-- The price component of a key. -/
def keyPrice (k : MatchKey) : ℚ := (ofLex (ofLex k).2).2

/-- Minimum accumulation over keys. -/
def minKeyStep (a : Option MatchKey) (k : MatchKey) : Option MatchKey :=
  match a with
  | none => some k
  | some m => some (min m k)

/-- The spec-side tie-break order between offers: smaller diff always wins; at
equal diff a direct (single-segment) offer beats one with stops; at equal diff
and equal directness the lower price wins. -/
def offerSpecLt (t : Nat) (a b : Offer) : Prop :=
  offerDiff a t < offerDiff b t ∨
  (offerDiff a t = offerDiff b t ∧ a.numSegments = 1 ∧ b.numSegments ≠ 1) ∨
  (offerDiff a t = offerDiff b t ∧ (a.numSegments = 1 ↔ b.numSegments = 1) ∧
    a.price < b.price)

/-- An award flight as find_matching_flight reads it: the processed scraper
record's departure clock time, stop count and per-cabin miles
(update_all_pricing.py lines 153-181 and fetch_award_pricing.py lines
24-56). -/
structure AFlight where
  depHour : Nat
  depMin : Nat
  numStops : Nat
  milesMain : Option ℚ
  milesFirst : Option ℚ
deriving DecidableEq

/-- diff = abs(flight_minutes - target_minutes) for an award flight. -/
def aflightDiff (f : AFlight) (targetMinutes : Nat) : Nat :=
  ((f.depHour * 60 + f.depMin : ℤ) - (targetMinutes : ℤ)).natAbs

/-- One iteration of the find_matching_flight loop (lines 167-174): a
strictly closer in-window flight replaces the best; the initial best_diff is
infinite, so the first in-window flight is always taken. -/
def step_match (targetMinutes maxDiff : Nat) (b : Option (Nat × AFlight))
    (f : AFlight) : Option (Nat × AFlight) :=
  let diff := aflightDiff f targetMinutes
  match b with
  | none => if diff ≤ maxDiff then some (diff, f) else none
  | some best =>
      if diff < best.1 ∧ diff ≤ maxDiff then some (diff, f) else some best

/-- Embeds find_matching_flight (update_all_pricing.py lines 153-181, also
fetch_award_pricing.py lines 24-56): the in-window flight closest to the
target departure time, keeping the earliest on ties; the stop count and miles
of the flights are never consulted. -/
def find_matching_flight (flights : List AFlight) (targetMinutes maxDiff : Nat) :
    Option AFlight :=
  if flights.isEmpty then none
  else (flights.foldl (step_match targetMinutes maxDiff) none).map Prod.snd

/-- An award flight departing 06:00 with one stop. -/
def cexStopFlight : AFlight := ⟨6, 0, 1, some 10, some 25⟩

/-- An award flight departing 06:20, nonstop. -/
def cexDirectFlight : AFlight := ⟨6, 20, 0, some 12, some 30⟩

/-- A cash offer departing 06:40 with a connection, priced 90. -/
def wOfferStop : Offer := ⟨6, 40, 2, 90⟩

/-- A direct cash offer departing 06:10, priced 120. -/
def wOfferDirect : Offer := ⟨6, 10, 1, 120⟩

end SameDayClt

namespace SameDayClt

theorem subRunIn_iff (pat : List Char) (l : List Char) :
    subRunIn pat l = true ↔ pat <:+: l := by
  induction l with
  | nil =>
      simp [subRunIn, List.isEmpty_iff, List.infix_nil]
  | cons c rest ih =>
      simp [subRunIn, List.isPrefixOf_iff_prefix, ih, List.infix_cons_iff]

theorem strIn_iff (pat s : String) : strIn pat s = true ↔ pat.data <:+: s.data := by
  simpa [strIn] using subRunIn_iff pat.data s.data

theorem strIn_false (pat s : String) (h : ¬ pat.data <:+: s.data) : strIn pat s = false := by
  rcases Bool.eq_false_or_eq_true (strIn pat s) with h' | h'
  · exact absurd ((strIn_iff pat s).1 h') h
  · exact h'

/-- C6 counterexample: the normalizer stores the mile cost of the offer text
"20K" as the rational 20 (thousands kept as the unit), not as 20000; the claim
that the stored cost is the number expanded by one thousand fails on this
input. -/
theorem miles_value_cex :
    parse_miles_value "20K" = some 20 ∧ parse_miles_value "20K" ≠ some 20000 := by
  decide

/-- C6 (amended): parsing a mile cost written as a number followed by "K"
strips the "K" and stores the numeric part unchanged, in thousands units, with
no expansion by one thousand; in particular "20K" yields 20 and "7.5K" yields
15/2.  Appending "K" to any cost string never changes the stored value. -/
theorem miles_value_strips_K :
    (∀ s : String, parse_miles_value (s ++ "K") = parse_miles_value s) ∧
    parse_miles_value "20K" = some 20 ∧
    parse_miles_value "7.5K" = some (15 / 2) := by
  refine ⟨fun s => ?_, by decide, ?_⟩
  · unfold parse_miles_value replaceKEmpty
    rw [String.data_append]
    rw [List.filter_append]
    simp
  · have h : parse_miles_value "7.5K" =
        some (((7 : ℕ) : ℚ) + ((5 : ℕ) : ℚ) / (((10 ^ 1 : ℕ)) : ℚ)) := rfl
    rw [h]
    norm_num

/-- C7 counterexample: the canonicalization tests "main" before "first", so the
label "Main First" (whose lowercased form contains "first") maps to "main", not
to "first" as the claimed test order demands; and an unrecognized label such as
"PREMIUM" is kept lowercased as "premium", not verbatim. -/
theorem cabin_canonicalization_cex :
    "first".data <:+: (pyLower "Main First").data ∧
    canonicalize_cabin "Main First" = "main" ∧
    canonicalize_cabin "Main First" ≠ "first" ∧
    canonicalize_cabin "PREMIUM" = "premium" ∧
    canonicalize_cabin "PREMIUM" ≠ "PREMIUM" := by
  refine ⟨(strIn_iff _ _).1 (by decide), by decide, by decide, by decide, by decide⟩

/-- C7 (amended): cabin canonicalization lowercases the label and tests
substring containment in the order "main", then "first", then "business"; a
label containing none of the keywords is kept in lowercased form (not dropped,
but also not verbatim).  "Business Class" maps to business, "First" to first,
"Main Cabin" to main, and the unrecognized all-lowercase label
"premium economy" passes through unchanged. -/
theorem cabin_canonicalization (s : String) :
    ("main".data <:+: (pyLower s).data → canonicalize_cabin s = "main") ∧
    (¬ "main".data <:+: (pyLower s).data → "first".data <:+: (pyLower s).data →
        canonicalize_cabin s = "first") ∧
    (¬ "main".data <:+: (pyLower s).data → ¬ "first".data <:+: (pyLower s).data →
        "business".data <:+: (pyLower s).data → canonicalize_cabin s = "business") ∧
    (¬ "main".data <:+: (pyLower s).data → ¬ "first".data <:+: (pyLower s).data →
        ¬ "business".data <:+: (pyLower s).data → canonicalize_cabin s = pyLower s) ∧
    canonicalize_cabin "Business Class" = "business" ∧
    canonicalize_cabin "First" = "first" ∧
    canonicalize_cabin "Main Cabin" = "main" ∧
    canonicalize_cabin "premium economy" = "premium economy" := by
  refine ⟨?_, ?_, ?_, ?_, by decide, by decide, by decide, by decide⟩
  · intro hm
    simp [canonicalize_cabin, (strIn_iff _ _).2 hm]
  · intro hm hf
    simp [canonicalize_cabin, strIn_false _ _ hm, (strIn_iff _ _).2 hf]
  · intro hm hf hb
    simp [canonicalize_cabin, strIn_false _ _ hm, strIn_false _ _ hf,
      (strIn_iff _ _).2 hb]
  · intro hm hf hb
    simp [canonicalize_cabin, strIn_false _ _ hm, strIn_false _ _ hf,
      strIn_false _ _ hb]

/-- Witness for the C7 theorem: the unrecognized label "Premium Economy" is
kept in lowercased form. -/
theorem cabin_canonicalization_witness :
    canonicalize_cabin "Premium Economy" = pyLower "Premium Economy" := by
  exact (cabin_canonicalization "Premium Economy").2.2.2.1
    (by decide) (by decide) (by decide)

theorem searchNumBefore_of_no_digit (x : Char) (l : List Char)
    (h : ∀ c ∈ l, c.isDigit = false) : searchNumBefore x l = none := by
  induction l with
  | nil => rfl
  | cons c rest ih =>
      have hc : c.isDigit = false := h c (List.mem_cons_self c rest)
      have hr : ∀ d ∈ rest, d.isDigit = false :=
        fun d hd => h d (List.mem_cons_of_mem c hd)
      simp [searchNumBefore, List.takeWhile_cons, hc, ih hr]

theorem searchNumBefore_of_not_mem (x : Char) (l : List Char)
    (h : x ∉ l) : searchNumBefore x l = none := by
  induction l with
  | nil => rfl
  | cons c rest ih =>
      have hcond :
          ¬ ((((c :: rest).takeWhile Char.isDigit) ≠ [] ∧
            (((c :: rest).drop ((c :: rest).takeWhile Char.isDigit).length).head? =
              some x))) := by
        rintro ⟨-, hx⟩
        exact h (List.mem_of_mem_drop (List.mem_of_mem_head? hx))
      have hrest : x ∉ rest := fun hx => h (List.mem_cons_of_mem c hx)
      rw [searchNumBefore, if_neg hcond]
      exact ih hrest

/-- C10: the ISO-style duration parser is total, returning
hours * 60 + minutes with an absent hours or minutes group contributing 0: a
string with no digit at all parses to 0 minutes, a string without H contributes
no hours, a string without M contributes no minutes, "PT2H15M" parses to 135,
"PT45M" to 45, "PT3H" to 180, and the empty and token-free strings to 0. -/
theorem parse_duration_total (s : String) :
    ((∀ c ∈ s.data, c.isDigit = false) → parse_duration s = 0) ∧
    ('H' ∉ s.data → parse_duration s = (searchNumBefore 'M' s.data).getD 0) ∧
    ('M' ∉ s.data → parse_duration s = (searchNumBefore 'H' s.data).getD 0 * 60) ∧
    parse_duration "PT2H15M" = 135 ∧
    parse_duration "PT45M" = 45 ∧
    parse_duration "PT3H" = 180 ∧
    parse_duration "" = 0 ∧
    parse_duration "invalid" = 0 := by
  refine ⟨?_, ?_, ?_, by decide, by decide, by decide, by decide, by decide⟩
  · intro h
    unfold parse_duration
    rw [searchNumBefore_of_no_digit 'H' s.data h,
      searchNumBefore_of_no_digit 'M' s.data h]
    rfl
  · intro h
    unfold parse_duration
    rw [searchNumBefore_of_not_mem 'H' s.data h]
    simp
  · intro h
    unfold parse_duration
    rw [searchNumBefore_of_not_mem 'M' s.data h]
    simp

theorem keyOf_lt_keyOf_iff (d₁ : Nat) (i₁ : Bool) (p₁ : ℚ) (d₂ : Nat)
    (i₂ : Bool) (p₂ : ℚ) :
    keyOf d₁ i₁ p₁ < keyOf d₂ i₂ p₂ ↔
      d₁ < d₂ ∨ (d₁ = d₂ ∧ dirRank i₁ < dirRank i₂) ∨
      (d₁ = d₂ ∧ dirRank i₁ = dirRank i₂ ∧ p₁ < p₂) := by
  unfold keyOf
  rw [Prod.Lex.lt_iff, Prod.Lex.lt_iff]
  simp
  tauto

theorem better_match_iff (d : Nat) (i : Bool) (p : ℚ) (b : BestMatch) :
    better_match d i p b = true ↔ keyOf d i p < bestKey b := by
  unfold bestKey
  rw [keyOf_lt_keyOf_iff]
  cases i <;> cases hb : b.isDirect <;>
    simp [better_match, dirRank, hb]

theorem bestKey_mk (d : Nat) (i : Bool) (p : ℚ) :
    bestKey ⟨d, i, p⟩ = keyOf d i p := rfl

theorem offerKey_eq (o : Offer) (t : Nat) :
    offerKey o t = keyOf (offerDiff o t) (o.numSegments == 1) o.price := rfl

theorem step_best_key (t m : Nat) (b : Option BestMatch) (o : Offer) :
    (step_best t m b o).map bestKey =
      if offerDiff o t ≤ m then minKeyStep (b.map bestKey) (offerKey o t)
      else b.map bestKey := by
  simp only [step_best]
  by_cases hd : offerDiff o t ≤ m
  · rw [if_pos hd, if_pos hd]
    cases b with
    | none => rfl
    | some best =>
        simp only [Option.map_some', minKeyStep]
        rcases Bool.eq_false_or_eq_true
            (better_match (offerDiff o t) (o.numSegments == 1) o.price best)
          with hbm | hbm
        · have hlt : offerKey o t < bestKey best := by
            rw [offerKey_eq]
            exact (better_match_iff _ _ _ _).1 hbm
          rw [if_pos hbm]
          simp only [Option.map_some', bestKey_mk, ← offerKey_eq]
          rw [min_eq_right (le_of_lt hlt)]
        · have hle : bestKey best ≤ offerKey o t := by
            rw [← not_lt]
            intro hlt
            rw [offerKey_eq] at hlt
            rw [(better_match_iff _ _ _ _).2 hlt] at hbm
            cases hbm
          have hnot : ¬ (better_match (offerDiff o t) (o.numSegments == 1)
              o.price best = true) := by
            rw [hbm]
            simp
          rw [if_neg hnot]
          simp only [Option.map_some']
          rw [min_eq_left hle]
  · rw [if_neg hd, if_neg hd]

theorem foldl_step_best_key (t m : Nat) :
    ∀ (offers : List Offer) (b : Option BestMatch),
      ((offers.foldl (step_best t m) b).map bestKey) =
        ((offers.filter (fun o => offerDiff o t ≤ m)).map
          (fun o => offerKey o t)).foldl minKeyStep (b.map bestKey) := by
  intro offers
  induction offers with
  | nil => intro b; rfl
  | cons o rest ih =>
      intro b
      by_cases hd : offerDiff o t ≤ m
      · rw [List.foldl_cons, ih (step_best t m b o),
          List.filter_cons_of_pos (by simpa using hd), List.map_cons,
          List.foldl_cons, step_best_key, if_pos hd]
      · rw [List.foldl_cons, ih (step_best t m b o),
          List.filter_cons_of_neg (by simpa using hd)]
        rw [step_best_key, if_neg hd]

theorem minKeyStep_rightComm (a : Option MatchKey) (k₁ k₂ : MatchKey) :
    minKeyStep (minKeyStep a k₁) k₂ = minKeyStep (minKeyStep a k₂) k₁ := by
  cases a with
  | none => simp [minKeyStep, min_comm]
  | some m => simp [minKeyStep, min_right_comm]

instance : RightCommutative minKeyStep := ⟨minKeyStep_rightComm⟩

theorem foldl_minKeyStep_isSome :
    ∀ (ks : List MatchKey) (a : MatchKey),
      ks.foldl minKeyStep (some a) ≠ none := by
  intro ks
  induction ks with
  | nil => intro a h; cases h
  | cons k rest ih =>
      intro a
      simp only [List.foldl_cons, minKeyStep]
      exact ih (min a k)

theorem foldl_minKeyStep_none (ks : List MatchKey) :
    ks.foldl minKeyStep none = none ↔ ks = [] := by
  cases ks with
  | nil => simp
  | cons k rest =>
      simp only [List.foldl_cons, minKeyStep]
      constructor
      · intro h
        exact absurd h (foldl_minKeyStep_isSome rest k)
      · intro h
        cases h

theorem foldl_minKeyStep_spec :
    ∀ (ks : List MatchKey) (a : MatchKey) (k : MatchKey),
      ks.foldl minKeyStep (some a) = some k →
      (k = a ∨ k ∈ ks) ∧ k ≤ a ∧ ∀ x ∈ ks, k ≤ x := by
  intro ks
  induction ks with
  | nil =>
      intro a k h
      injection h with h
      subst h
      exact ⟨Or.inl rfl, le_refl _, by simp⟩
  | cons y rest ih =>
      intro a k h
      rw [List.foldl_cons] at h
      obtain ⟨hmem, hle, hall⟩ := ih (min a y) k h
      refine ⟨?_, le_trans hle (min_le_left a y), ?_⟩
      · rcases hmem with he | hm
        · rcases le_total a y with hay | hya
          · exact Or.inl (by rw [he, min_eq_left hay])
          · refine Or.inr (List.mem_cons.2 (Or.inl ?_))
            rw [he, min_eq_right hya]
        · exact Or.inr (List.mem_cons.2 (Or.inr hm))
      · intro x hx
        rcases List.mem_cons.1 hx with hxy | hxr
        · rw [hxy]
          exact le_trans hle (min_le_right a y)
        · exact hall x hxr

theorem map_price_eq_map_keyPrice (st : Option BestMatch) :
    st.map BestMatch.price = (st.map bestKey).map keyPrice := by
  cases st <;> rfl

theorem find_flight_by_time_keys (offers : List Offer) (t m : Nat) :
    find_flight_by_time offers t m =
      (((offers.filter (fun o => offerDiff o t ≤ m)).map
        (fun o => offerKey o t)).foldl minKeyStep none).map keyPrice := by
  unfold find_flight_by_time
  rw [map_price_eq_map_keyPrice, foldl_step_best_key t m offers none]
  rfl

theorem offerKey_lt_iff (t : Nat) (a b : Offer) :
    offerKey a t < offerKey b t ↔ offerSpecLt t a b := by
  rw [offerKey_eq, offerKey_eq, keyOf_lt_keyOf_iff]
  unfold offerSpecLt
  by_cases ha : a.numSegments = 1 <;> by_cases hb : b.numSegments = 1 <;>
    simp [ha, hb, dirRank]

theorem foldl_step_match_spec (t m : Nat) :
    ∀ (flights : List AFlight) (b : Option (Nat × AFlight)) (d : Nat)
      (g : AFlight),
      (∀ bd bg, b = some (bd, bg) → bd = aflightDiff bg t ∧ bd ≤ m) →
      flights.foldl (step_match t m) b = some (d, g) →
      (d = aflightDiff g t ∧ d ≤ m) ∧
      (b = some (d, g) ∨ g ∈ flights) ∧
      (∀ f ∈ flights, aflightDiff f t ≤ m → d ≤ aflightDiff f t) ∧
      (∀ bd bg, b = some (bd, bg) → d ≤ bd) := by
  intro flights
  induction flights with
  | nil =>
      intro b d g hb h
      refine ⟨hb d g h, Or.inl h, by simp, ?_⟩
      intro bd bg hbe
      rw [hbe] at h
      injection h with h
      injection h with h1 h2
      exact le_of_eq h1.symm
  | cons f rest ih =>
      intro b d g hb h
      rw [List.foldl_cons] at h
      cases b with
      | none =>
          simp only [step_match] at h
          by_cases hfm : aflightDiff f t ≤ m
          · rw [if_pos hfm] at h
            obtain ⟨hdgm, hmem, hall, hmono⟩ :=
              ih (some (aflightDiff f t, f)) d g
                (by
                  intro bd bg hbe
                  injection hbe with hbe
                  injection hbe with h1 h2
                  rw [← h1, ← h2]
                  exact ⟨rfl, hfm⟩) h
            refine ⟨hdgm, ?_, ?_, ?_⟩
            · rcases hmem with hbe | hm
              · injection hbe with hbe
                injection hbe with h1 h2
                exact Or.inr (List.mem_cons.2 (Or.inl h2.symm))
              · exact Or.inr (List.mem_cons.2 (Or.inr hm))
            · intro f2 hf2 hf2m
              rcases List.mem_cons.1 hf2 with hf2f | hf2r
              · rw [hf2f]
                exact hmono (aflightDiff f t) f rfl
              · exact hall f2 hf2r hf2m
            · intro bd bg hbe
              cases hbe
          · rw [if_neg hfm] at h
            obtain ⟨hdgm, hmem, hall, -⟩ :=
              ih none d g (by intro bd bg hbe; cases hbe) h
            refine ⟨hdgm, ?_, ?_, ?_⟩
            · rcases hmem with hbe | hm
              · cases hbe
              · exact Or.inr (List.mem_cons.2 (Or.inr hm))
            · intro f2 hf2 hf2m
              rcases List.mem_cons.1 hf2 with hf2f | hf2r
              · rw [hf2f] at hf2m
                exact absurd hf2m hfm
              · exact hall f2 hf2r hf2m
            · intro bd bg hbe
              cases hbe
      | some best =>
          obtain ⟨bd0, bg0⟩ := best
          obtain ⟨hw1, hw2⟩ := hb bd0 bg0 rfl
          simp only [step_match] at h
          by_cases hc : aflightDiff f t < bd0 ∧ aflightDiff f t ≤ m
          · rw [if_pos hc] at h
            obtain ⟨hdgm, hmem, hall, hmono⟩ :=
              ih (some (aflightDiff f t, f)) d g
                (by
                  intro bd bg hbe
                  injection hbe with hbe
                  injection hbe with h1 h2
                  rw [← h1, ← h2]
                  exact ⟨rfl, hc.2⟩) h
            refine ⟨hdgm, ?_, ?_, ?_⟩
            · rcases hmem with hbe | hm
              · injection hbe with hbe
                injection hbe with h1 h2
                exact Or.inr (List.mem_cons.2 (Or.inl h2.symm))
              · exact Or.inr (List.mem_cons.2 (Or.inr hm))
            · intro f2 hf2 hf2m
              rcases List.mem_cons.1 hf2 with hf2f | hf2r
              · rw [hf2f]
                exact hmono (aflightDiff f t) f rfl
              · exact hall f2 hf2r hf2m
            · intro bd bg hbe
              injection hbe with hbe
              injection hbe with h1 h2
              rw [← h1]
              exact le_trans (hmono (aflightDiff f t) f rfl) (le_of_lt hc.1)
          · rw [if_neg hc] at h
            obtain ⟨hdgm, hmem, hall, hmono⟩ :=
              ih (some (bd0, bg0)) d g
                (by
                  intro bd bg hbe
                  injection hbe with hbe
                  injection hbe with h1 h2
                  rw [← h1, ← h2]
                  exact ⟨hw1, hw2⟩) h
            refine ⟨hdgm, ?_, ?_, ?_⟩
            · rcases hmem with hbe | hm
              · exact Or.inl hbe
              · exact Or.inr (List.mem_cons.2 (Or.inr hm))
            · intro f2 hf2 hf2m
              rcases List.mem_cons.1 hf2 with hf2f | hf2r
              · have hbdle : bd0 ≤ aflightDiff f t := by
                  rcases Nat.lt_or_ge (aflightDiff f t) bd0 with hlt | hge
                  · refine absurd ⟨hlt, ?_⟩ hc
                    rw [← hf2f]
                    exact hf2m
                  · exact hge
                rw [hf2f]
                exact le_trans (hmono bd0 bg0 rfl) hbdle
              · exact hall f2 hf2r hf2m
            · intro bd bg hbe
              injection hbe with hbe
              injection hbe with h1 h2
              rw [← h1]
              exact hmono bd0 bg0 rfl

/-- C1 counterexample: for a 06:10 target, the award-side matcher
find_matching_flight is shown two flights at equal 10-minute difference, one
with a stop listed first and one nonstop; it selects the one-stop flight — not
the direct one as the claimed tie-break demands — and reversing the input
order changes its selection, so the outcome also depends on input order. -/
theorem nearest_time_order_cex :
    aflightDiff cexStopFlight 370 = aflightDiff cexDirectFlight 370 ∧
    cexDirectFlight.numStops = 0 ∧ cexStopFlight.numStops ≠ 0 ∧
    find_matching_flight [cexStopFlight, cexDirectFlight] 370 30 =
      some cexStopFlight ∧
    find_matching_flight [cexDirectFlight, cexStopFlight] 370 30 =
      some cexDirectFlight ∧
    cexStopFlight ≠ cexDirectFlight := by
  decide

/-- C1 (amended): the cash matcher find_flight_by_time discards candidates
whose departure-minutes difference from the target exceeds the window and
returns the price of the candidate that is minimal in the exact tie-break
order — smaller difference first, then direct over with-stops, then lower
price — and its outcome is independent of the input order; the award matcher
find_matching_flight also discards out-of-window candidates but selects a
flight solely by smallest difference, never consulting stops or price, keeping
the earliest candidate on ties, so its choice can depend on input order. -/
theorem nearest_time_matcher (offers l2 : List Offer) (flights : List AFlight)
    (t m : Nat) (pr : ℚ) (g : AFlight) :
    (find_flight_by_time offers t m =
        find_flight_by_time (offers.filter (fun o => offerDiff o t ≤ m)) t m) ∧
    (offers.Perm l2 →
        find_flight_by_time offers t m = find_flight_by_time l2 t m) ∧
    (find_flight_by_time offers t m = none ↔
        ∀ o ∈ offers, m < offerDiff o t) ∧
    (find_flight_by_time offers t m = some pr →
        ∃ o ∈ offers, offerDiff o t ≤ m ∧ o.price = pr ∧
          ∀ o2 ∈ offers, offerDiff o2 t ≤ m → ¬ offerSpecLt t o2 o) ∧
    (find_matching_flight flights t m = some g →
        g ∈ flights ∧ aflightDiff g t ≤ m ∧
          ∀ f ∈ flights, aflightDiff f t ≤ m →
            aflightDiff g t ≤ aflightDiff f t) := by
  refine ⟨?_, ?_, ?_, ?_, ?_⟩
  · rw [find_flight_by_time_keys offers,
      find_flight_by_time_keys (offers.filter (fun o => offerDiff o t ≤ m)),
      List.filter_filter]
    simp
  · intro hperm
    rw [find_flight_by_time_keys offers t m, find_flight_by_time_keys l2 t m]
    exact congrArg (Option.map keyPrice)
      (List.Perm.foldl_eq
        ((hperm.filter (fun o => decide (offerDiff o t ≤ m))).map
          (fun o => offerKey o t)) none)
  · rw [find_flight_by_time_keys, Option.map_eq_none', foldl_minKeyStep_none,
      List.map_eq_nil, List.filter_eq_nil]
    simp [not_le]
  · intro h
    rw [find_flight_by_time_keys, Option.map_eq_some'] at h
    obtain ⟨k, hk, hkp⟩ := h
    cases hks : (offers.filter (fun o => offerDiff o t ≤ m)).map
        (fun o => offerKey o t) with
    | nil =>
        rw [hks] at hk
        cases hk
    | cons y restk =>
        rw [hks, List.foldl_cons] at hk
        obtain ⟨hmem, hley, hall⟩ := foldl_minKeyStep_spec restk y k hk
        have hkmem : k ∈ (offers.filter (fun o => offerDiff o t ≤ m)).map
            (fun o => offerKey o t) := by
          rw [hks]
          rcases hmem with he | hm
          · exact he ▸ List.mem_cons_self y restk
          · exact List.mem_cons.2 (Or.inr hm)
        have hkall : ∀ x ∈ (offers.filter (fun o => offerDiff o t ≤ m)).map
            (fun o => offerKey o t), k ≤ x := by
          rw [hks]
          intro x hx
          rcases List.mem_cons.1 hx with h1 | h2
          · exact h1 ▸ hley
          · exact hall x h2
        obtain ⟨o, ho, hko⟩ := List.mem_map.1 hkmem
        obtain ⟨hoo, hom⟩ := List.mem_filter.1 ho
        refine ⟨o, hoo, by simpa using hom, ?_, ?_⟩
        · rw [← hkp, ← hko]
          rfl
        · intro o2 ho2 ho2m
          rw [← offerKey_lt_iff t o2 o, not_lt, hko]
          refine hkall _ ?_
          exact List.mem_map.2
            ⟨o2, List.mem_filter.2 ⟨ho2, by simpa using ho2m⟩, rfl⟩
  · intro h
    unfold find_matching_flight at h
    by_cases he : flights.isEmpty
    · rw [if_pos he] at h
      cases h
    · rw [if_neg he, Option.map_eq_some'] at h
      obtain ⟨⟨d, g2⟩, hfold, hsnd⟩ := h
      have hg2 : g2 = g := hsnd
      rw [hg2] at hfold
      obtain ⟨⟨hdg, hdm⟩, hmem, hall, -⟩ :=
        foldl_step_match_spec t m flights none d g
          (by intro bd bg hbe; cases hbe) hfold
      refine ⟨?_, ?_, ?_⟩
      · rcases hmem with hbe | hm
        · cases hbe
        · exact hm
      · rw [← hdg]
        exact hdm
      · intro f hf hfm
        rw [← hdg]
        exact hall f hf hfm

/-- Witness for the C1 theorem: swapping the two concrete offers leaves the
cash matcher's answer unchanged, and it selects the direct 06:10 offer priced
120 over the cheaper one-stop 06:40 offer for a 06:00 target with a 60-minute
window. -/
theorem nearest_time_matcher_witness :
    find_flight_by_time [wOfferStop, wOfferDirect] 360 60 =
      find_flight_by_time [wOfferDirect, wOfferStop] 360 60 ∧
    find_flight_by_time [wOfferStop, wOfferDirect] 360 60 = some 120 :=
  ⟨(nearest_time_matcher [wOfferStop, wOfferDirect] [wOfferDirect, wOfferStop]
      [] 360 60 0 ⟨0, 0, 0, none, none⟩).2.1
    (List.Perm.swap wOfferDirect wOfferStop []),
    by decide⟩

/-- Witness for the C10 theorem: a duration string with no digits parses to 0,
and one without an H group takes all its minutes from the M group. -/
theorem parse_duration_total_witness :
    parse_duration "no duration here" = 0 ∧ parse_duration "PT45M" = 45 := by
  constructor
  · exact (parse_duration_total "no duration here").1 (by decide)
  · exact (parse_duration_total "PT45M").2.2.2.2.1

/-- C2: every TripCandidate emitted by the trip pairing engine has ground time
(return departure minus outbound arrival, converted to hours) at least the
configured minimum, and the candidate's stored ground-time field is exactly
that value. -/
theorem ground_time_floor (outbound_offers return_offers : List PFlight)
    (min_ground_time : ℚ) (max_duration : Nat)
    (max_depart_hour min_return_hour max_return_hour : ℤ) (t : TripCandidate)
    (ht : t ∈ find_same_day_trips_for_destination outbound_offers return_offers
      min_ground_time max_duration max_depart_hour min_return_hour
      max_return_hour) :
    min_ground_time ≤ calculate_ground_time t.outbound.arriveTime t.ret.departTime ∧
    t.groundTimeHours = calculate_ground_time t.outbound.arriveTime t.ret.departTime := by
  unfold find_same_day_trips_for_destination pair_trips at ht
  simp only [List.mem_flatMap, List.mem_filterMap] at ht
  obtain ⟨o, _, r, _, hor⟩ := ht
  by_cases hgt :
      min_ground_time ≤ calculate_ground_time o.arriveTime r.departTime
  · rw [if_pos hgt] at hor
    injection hor with h
    subst h
    exact ⟨hgt, rfl⟩
  · rw [if_neg hgt] at hor
    cases hor

/-- Witness for the C2 theorem: the concrete pairing of a 06:00-08:00 outbound
with a 17:00 return meets a 3-hour ground-time floor. -/
theorem ground_time_floor_witness :
    (3 : ℚ) ≤ calculate_ground_time wTrip.outbound.arriveTime wTrip.ret.departTime ∧
    wTrip.groundTimeHours =
      calculate_ground_time wTrip.outbound.arriveTime wTrip.ret.departTime := by
  refine ground_time_floor [wOutFlight] [wRetFlight] 3 204 9 15 19 wTrip ?_
  have hlist : find_same_day_trips_for_destination [wOutFlight] [wRetFlight]
      3 204 9 15 19 = [wTrip] := by
    unfold find_same_day_trips_for_destination pair_trips
      filter_outbound_flights filter_return_flights wTrip
    norm_num [calculate_ground_time, localHour, wOutFlight, wRetFlight,
      List.filterMap_cons, List.filterMap_nil]
  rw [hlist]
  exact List.mem_singleton.2 rfl

/-- C8: the outbound filter passes exactly the flights whose local departure
clock hour (minutes discarded) is strictly below the cutoff hour with duration
at most the maximum, and the return filter passes exactly those whose local
arrival hour lies in the half-open window [min_arrive_hour, max_arrive_hour)
with duration at most the maximum; at the boundary, an 08:59 departure (539
minutes of day) passes a cutoff of 9 while an 09:00 departure (540 minutes)
does not. -/
theorem filter_boundary_semantics (flights : List PFlight)
    (cutoff min_arrive max_arrive : ℤ) (max_duration : Nat) (f : PFlight) :
    (f ∈ filter_outbound_flights flights cutoff max_duration ↔
      f ∈ flights ∧ localHour f.departTime < cutoff ∧
        f.durationMinutes ≤ max_duration) ∧
    (f ∈ filter_return_flights flights min_arrive max_arrive max_duration ↔
      f ∈ flights ∧ min_arrive ≤ localHour f.arriveTime ∧
        localHour f.arriveTime < max_arrive ∧
        f.durationMinutes ≤ max_duration) ∧
    filter_outbound_flights [fl859] 9 204 = [fl859] ∧
    filter_outbound_flights [fl900] 9 204 = [] := by
  refine ⟨?_, ?_, by decide, by decide⟩
  · simp [filter_outbound_flights, List.mem_filter, and_assoc]
  · simp [filter_return_flights, List.mem_filter, and_assoc]

/-- Witness for the C8 theorem: the 08:59 flight is kept by the outbound
filter applied to both boundary flights. -/
theorem filter_boundary_semantics_witness :
    fl859 ∈ filter_outbound_flights [fl859, fl900] 9 204 := by
  exact (filter_boundary_semantics [fl859, fl900] 9 15 19 204 fl859).1.2
    ⟨by decide, by decide, by decide⟩

/-- C9 counterexample: on a SUCCEEDED run whose result page lists prices
[50, 30], the adapter returns the first vehicle's price 50 together with its
URL and description; it does not compute the page minimum 30, so the claimed
defensive minimum fails when the external sort order is violated. -/
theorem turo_lowest_cex :
    fetch_turo_pricing [RunStatus.succeeded] [cexV1, cexV2] =
      some ⟨50, some "turo.example/v1", "2020 Toyota Corolla"⟩ ∧
    vehicleAmount cexV2 = some 30 ∧ cexV2 ∈ [cexV1, cexV2] ∧ (30 : ℚ) < 50 := by
  decide

/-- C9 (amended): when the car-rental job reaches SUCCEEDED with a non-empty
vehicle list whose first entry carries a nonzero daily amount, the adapter
returns that FIRST entry of the result page (trusting the requested ascending
price sort rather than recomputing a minimum), together with that vehicle's
description and booking URL; the rest of the page is ignored.  When the page
really is sorted ascending by amount, that first entry is the page minimum.
Terminal failure states and an exhausted poll budget yield nothing, and a
non-terminal status keeps polling. -/
theorem turo_first_of_page (v : Vehicle) (rest : List Vehicle) (amount : ℚ)
    (vehicles : List Vehicle) (statuses : List RunStatus)
    (hv : v.avgDailyPrice = some (some amount)) (hnz : amount ≠ 0) :
    fetch_turo_pricing [RunStatus.succeeded] (v :: rest) =
      some ⟨amount, pyOrStr v.url v.vehicleUrl, vehicleDescr v⟩ ∧
    fetch_turo_pricing [RunStatus.succeeded] (v :: rest) =
      fetch_turo_pricing [RunStatus.succeeded] [v] ∧
    (List.Pairwise (fun w w' => ∀ a b : ℚ, vehicleAmount w = some a →
        vehicleAmount w' = some b → a ≤ b) (v :: rest) →
      ∀ w ∈ v :: rest, ∀ b : ℚ, vehicleAmount w = some b → amount ≤ b) ∧
    fetch_turo_pricing [] vehicles = none ∧
    fetch_turo_pricing (RunStatus.failed :: statuses) vehicles = none ∧
    fetch_turo_pricing (RunStatus.aborted :: statuses) vehicles = none ∧
    fetch_turo_pricing (RunStatus.timedOut :: statuses) vehicles = none ∧
    fetch_turo_pricing (RunStatus.waiting :: statuses) vehicles =
      fetch_turo_pricing statuses vehicles := by
  refine ⟨?_, rfl, ?_, rfl, rfl, rfl, rfl, rfl⟩
  · simp [fetch_turo_pricing, extract_turo_result, hv, hnz]
  · intro hpair w hw b hb
    have hva : vehicleAmount v = some amount := by
      unfold vehicleAmount
      rw [hv]
      rfl
    rcases List.mem_cons.1 hw with hweq | hwrest
    · subst hweq
      rw [hva] at hb
      injection hb with hb
      exact le_of_eq hb
    · exact (List.pairwise_cons.1 hpair).1 w hwrest amount b hva hb

/-- Witness for the C9 theorem: a one-vehicle SUCCEEDED page returns that
vehicle's price, URL and description. -/
theorem turo_first_of_page_witness :
    fetch_turo_pricing [RunStatus.succeeded] [cexV1] =
      some ⟨50, pyOrStr cexV1.url cexV1.vehicleUrl, vehicleDescr cexV1⟩ :=
  (turo_first_of_page cexV1 [] 50 [] [] (by decide) (by decide)).1

/-- C4: for a destination where the cash source succeeds on both legs, the
award source finds no availability on either leg, and the car-rental source
succeeds, the composite status is exactly
"Cash OK | Award: No availability | Turo OK" — one token per attempted
source, concatenated in source order cash, award, car. -/
theorem composite_status_scenario (cashO cashR : ℚ) (tr : TuroResult)
    (ho : cashO ≠ 0) (hr : cashR ≠ 0) :
    statusParts ⟨false, false, false, true⟩
        ⟨some cashO, some cashR, none, none, some tr, false⟩ =
      ["Cash OK", "Award: No availability", "Turo OK"] ∧
    pricingStatusString ⟨false, false, false, true⟩
        ⟨some cashO, some cashR, none, none, some tr, false⟩ =
      "Cash OK | Award: No availability | Turo OK" := by
  have hparts : statusParts ⟨false, false, false, true⟩
      ⟨some cashO, some cashR, none, none, some tr, false⟩ =
      ["Cash OK", "Award: No availability", "Turo OK"] := by
    simp [statusParts, cashStatusToken, awardStatusToken, turoStatusToken,
      truthyQ, ho, hr]
  refine ⟨hparts, ?_⟩
  rw [pricingStatusString, hparts]
  decide

/-- Witness for the C4 theorem at the concrete outcome with cash legs 100 and
120 and a 45-a-day rental. -/
theorem composite_status_scenario_witness :
    pricingStatusString ⟨false, false, false, true⟩
        ⟨some 100, some 120, none, none, some ⟨45, some "u", "car"⟩, false⟩ =
      "Cash OK | Award: No availability | Turo OK" :=
  (composite_status_scenario 100 120 ⟨45, some "u", "car"⟩
    (by decide) (by decide)).2

/-- C5 counterexample: with the cash source disabled by its skip flag and the
other two attempted, the composite status carries no token at all for the
cash source — in particular not the claimed "Skipped" token. -/
theorem skipped_token_cex :
    statusParts ⟨true, false, false, true⟩
        ⟨none, none, none, none, some ⟨45, some "u", "car"⟩, false⟩ =
      ["Award: No availability", "Turo OK"] ∧
    "Skipped" ∉ statusParts ⟨true, false, false, true⟩
        ⟨none, none, none, none, some ⟨45, some "u", "car"⟩, false⟩ ∧
    pricingStatusString ⟨true, false, false, true⟩
        ⟨none, none, none, none, some ⟨45, some "u", "car"⟩, false⟩ =
      "Award: No availability | Turo OK" := by
  refine ⟨by decide, by decide, by decide⟩

theorem statusParts_mem (cfg : RunConfig) (o : Outcomes) (p : String)
    (hp : p ∈ statusParts cfg o) :
    (cfg.skipCash = false ∧ p = cashStatusToken o) ∨
    (cfg.skipAwards = false ∧ p = awardStatusToken o) ∨
    (cfg.skipTuro = false ∧ cfg.hasApifyToken = true ∧ p = turoStatusToken o) := by
  unfold statusParts at hp
  rcases List.mem_append.1 hp with hp' | hpt
  · rcases List.mem_append.1 hp' with hpc | hpa
    · cases hc : cfg.skipCash
      · rw [hc] at hpc
        simp at hpc
        exact Or.inl ⟨rfl, hpc⟩
      · rw [hc] at hpc
        simp at hpc
    · cases ha : cfg.skipAwards
      · rw [ha] at hpa
        simp at hpa
        exact Or.inr (Or.inl ⟨rfl, hpa⟩)
      · rw [ha] at hpa
        simp at hpa
  · cases ht : cfg.skipTuro
    · cases htk : cfg.hasApifyToken
      · rw [ht, htk] at hpt
        simp at hpt
      · rw [ht, htk] at hpt
        simp at hpt
        exact Or.inr (Or.inr ⟨rfl, rfl, hpt⟩)
    · rw [ht] at hpt
      simp at hpt

theorem cashStatusToken_cases (o : Outcomes) :
    cashStatusToken o = "Cash OK" ∨ cashStatusToken o = "Cash Partial" ∨
      cashStatusToken o = "Cash Failed" := by
  unfold cashStatusToken
  split_ifs <;> simp

theorem awardStatusToken_cases (o : Outcomes) :
    awardStatusToken o = "Award OK" ∨ awardStatusToken o = "Award Partial" ∨
      awardStatusToken o = "Award: No availability" := by
  unfold awardStatusToken
  split_ifs <;> simp

theorem turoStatusToken_cases (o : Outcomes) :
    turoStatusToken o = "Turo Error" ∨ turoStatusToken o = "Turo OK" ∨
      turoStatusToken o = "Turo Failed" := by
  unfold turoStatusToken
  split_ifs <;> simp

/-- C5 (amended): a pricing source disabled by its skip flag contributes no
token at all to that destination's composite status — its token is absent, so
in particular the status never records "Failed" for it, and it also never
records "Skipped" (a token the status never contains); when all three sources
are disabled the composite status reads "No updates". -/
theorem skip_flag_no_token (cfg : RunConfig) (o : Outcomes) :
    "Skipped" ∉ statusParts cfg o ∧
    (cfg.skipCash = true → ∀ p ∈ statusParts cfg o,
        p ∉ (["Cash OK", "Cash Partial", "Cash Failed"] : List String)) ∧
    (cfg.skipAwards = true → ∀ p ∈ statusParts cfg o,
        p ∉ (["Award OK", "Award Partial", "Award: No availability"] : List String)) ∧
    (cfg.skipTuro = true → ∀ p ∈ statusParts cfg o,
        p ∉ (["Turo OK", "Turo Failed", "Turo Error"] : List String)) ∧
    (cfg.skipCash = true → cfg.skipAwards = true → cfg.skipTuro = true →
        pricingStatusString cfg o = "No updates") := by
  refine ⟨?_, ?_, ?_, ?_, ?_⟩
  · intro h
    rcases statusParts_mem cfg o _ h with ⟨_, he⟩ | ⟨_, he⟩ | ⟨_, _, he⟩
    · rcases cashStatusToken_cases o with h1 | h1 | h1 <;>
        rw [h1] at he <;> revert he <;> decide
    · rcases awardStatusToken_cases o with h1 | h1 | h1 <;>
        rw [h1] at he <;> revert he <;> decide
    · rcases turoStatusToken_cases o with h1 | h1 | h1 <;>
        rw [h1] at he <;> revert he <;> decide
  · intro hsc p hp hmem
    rcases statusParts_mem cfg o p hp with ⟨hc, _⟩ | ⟨_, he⟩ | ⟨_, _, he⟩
    · cases hsc.symm.trans hc
    · subst he
      rcases awardStatusToken_cases o with h1 | h1 | h1 <;>
        rw [h1] at hmem <;> revert hmem <;> decide
    · subst he
      rcases turoStatusToken_cases o with h1 | h1 | h1 <;>
        rw [h1] at hmem <;> revert hmem <;> decide
  · intro hsa p hp hmem
    rcases statusParts_mem cfg o p hp with ⟨_, he⟩ | ⟨ha, _⟩ | ⟨_, _, he⟩
    · subst he
      rcases cashStatusToken_cases o with h1 | h1 | h1 <;>
        rw [h1] at hmem <;> revert hmem <;> decide
    · cases hsa.symm.trans ha
    · subst he
      rcases turoStatusToken_cases o with h1 | h1 | h1 <;>
        rw [h1] at hmem <;> revert hmem <;> decide
  · intro hst p hp hmem
    rcases statusParts_mem cfg o p hp with ⟨_, he⟩ | ⟨_, he⟩ | ⟨ht, _, _⟩
    · subst he
      rcases cashStatusToken_cases o with h1 | h1 | h1 <;>
        rw [h1] at hmem <;> revert hmem <;> decide
    · subst he
      rcases awardStatusToken_cases o with h1 | h1 | h1 <;>
        rw [h1] at hmem <;> revert hmem <;> decide
    · cases hst.symm.trans ht
  · intro hsc hsa hst
    simp [pricingStatusString, statusParts, hsc, hsa, hst]

theorem processedUpTo_zero (p : Nat → Row → Row) :
    ∀ (j : Nat) (df : List Row), processedUpTo p 0 j df = df := by
  intro j df
  induction df generalizing j with
  | nil => rfl
  | cons r rs ih => simp [processedUpTo, ih]

theorem processedUpTo_length (p : Nat → Row → Row) (n : Nat) :
    ∀ (df : List Row) (j : Nat), (processedUpTo p n j df).length = df.length := by
  intro df
  induction df with
  | nil => intro j; rfl
  | cons r rs ih => intro j; simp [processedUpTo, ih]

theorem updateRowAt_processedUpTo (p : Nat → Row → Row) (i : Nat) :
    ∀ (df : List Row) (j : Nat),
      updateRowAt p i j (processedUpTo p i j df) = processedUpTo p (i + 1) j df := by
  intro df
  induction df with
  | nil => intro j; rfl
  | cons r rs ih =>
      intro j
      simp only [processedUpTo, updateRowAt]
      rw [ih (j + 1)]
      congr 1
      split_ifs <;> first | rfl | omega

theorem mainLoop_snapshots (p : Nat → Row → Row) :
    ∀ (k i : Nat) (df : List Row),
      (mainLoop p i k (processedUpTo p i 0 df)).2 =
        (List.range k).map (fun m => processedUpTo p (i + m + 1) 0 df) := by
  intro k
  induction k with
  | zero => intro i df; rfl
  | succ k ih =>
      intro i df
      simp only [mainLoop]
      rw [updateRowAt_processedUpTo p i df 0, ih (i + 1) df,
        List.range_succ_eq_map, List.map_cons, List.map_map]
      congr 1
      refine List.map_congr_left fun a _ => ?_
      show processedUpTo p (i + 1 + a + 1) 0 df =
        processedUpTo p (i + (a + 1) + 1) 0 df
      rw [show i + 1 + a + 1 = i + (a + 1) + 1 from by omega]

theorem pricingRun_snapshots (p : Nat → Row → Row) (df : List Row) :
    (pricingRun p df).2 =
      (List.range df.length).map (fun m => processedUpTo p (m + 1) 0 df) := by
  unfold pricingRun
  conv_lhs => rw [show df = processedUpTo p 0 0 df from
    (processedUpTo_zero p 0 df).symm]
  rw [mainLoop_snapshots p _ 0 df, processedUpTo_zero p 0 df]
  refine List.map_congr_left ?_
  intro a _
  norm_num

theorem processedUpTo_get? (p : Nat → Row → Row) (n : Nat) :
    ∀ (df : List Row) (j q : Nat),
      (processedUpTo p n j df).get? q =
        (df.get? q).map (fun r => if j + q < n then p (j + q) r else r) := by
  intro df
  induction df with
  | nil => intro j q; simp [processedUpTo]
  | cons r rs ih =>
      intro j q
      cases q with
      | zero => simp [processedUpTo]
      | succ q =>
          simp only [processedUpTo, List.get?_cons_succ]
          rw [show j + (q + 1) = j + 1 + q from by omega]
          exact ih (j + 1) q

theorem processedUpTo_countP (p : Nat → Row → Row) (n : Nat)
    (hp : ∀ idx r, ((p idx r).pricingStatus).isSome = true) :
    ∀ (df : List Row) (j : Nat), (∀ r ∈ df, r.pricingStatus = none) →
      (processedUpTo p n j df).countP (fun r => r.pricingStatus.isSome) =
        min (n - j) df.length := by
  intro df
  induction df with
  | nil => intro j h; simp [processedUpTo]
  | cons r rs ih =>
      intro j h
      have hr : r.pricingStatus = none := h r (List.mem_cons_self r rs)
      have hrs : ∀ x ∈ rs, x.pricingStatus = none :=
        fun x hx => h x (List.mem_cons_of_mem r hx)
      simp only [processedUpTo, List.countP_cons, List.length_cons]
      rw [ih (j + 1) hrs]
      by_cases hj : j < n
      · simp only [if_pos hj, hp j r, if_true]
        omega
      · simp only [if_neg hj, hr, Option.isSome_none, Bool.false_eq_true,
          if_false]
        omega

theorem update_sets_status (cfg : RunConfig) (o : Outcomes)
    (searchDate now : String) (row : Row) :
    (update_pricing_for_trip cfg o searchDate now row).pricingStatus =
      some (pricingStatusString cfg o) := rfl

theorem processFn_status (cfg : RunConfig) (oc : Nat → Outcomes)
    (searchDate now : String) (idx : Nat) (r : Row) :
    ((processFn cfg oc searchDate now idx r).pricingStatus).isSome = true := by
  show ((update_pricing_for_trip cfg (oc idx) searchDate now r).pricingStatus).isSome = true
  rw [update_sets_status]
  rfl

/-- C3: the orchestrator writes the full dataset to storage immediately after
each destination finishes; the checkpoint written after destination index n
(the (n+1)-st destination) has the same length as the dataset, carries exactly
n+1 rows with a pricing status, each of its first n+1 rows equals the atomic
result of update_pricing_for_trip on the original row, and every later row is
the untouched original — so an interruption after destination N's save and
before N+1 starts leaves exactly N complete destination pricing records and no
partially-priced one. -/
theorem checkpoint_exactly_n (cfg : RunConfig) (oc : Nat → Outcomes)
    (searchDate now : String) (df : List Row) (n : Nat) (hn : n < df.length)
    (h0 : ∀ r ∈ df, r.pricingStatus = none) :
    ∃ snap,
      (pricingRun (processFn cfg oc searchDate now) df).2.get? n = some snap ∧
      snap.length = df.length ∧
      snap.countP (fun r => r.pricingStatus.isSome) = n + 1 ∧
      (∀ j, j ≤ n → snap.get? j =
        (df.get? j).map (fun r => processFn cfg oc searchDate now j r)) ∧
      (∀ j, n < j → snap.get? j = df.get? j) := by
  refine ⟨processedUpTo (processFn cfg oc searchDate now) (n + 1) 0 df,
    ?_, ?_, ?_, ?_, ?_⟩
  · rw [pricingRun_snapshots, List.get?_map, List.get?_range hn]
    rfl
  · exact processedUpTo_length _ _ df 0
  · rw [processedUpTo_countP (processFn cfg oc searchDate now) (n + 1)
      (fun idx r => processFn_status cfg oc searchDate now idx r) df 0 h0]
    omega
  · intro j hj
    rw [processedUpTo_get? (processFn cfg oc searchDate now) (n + 1) df 0 j]
    cases hdfj : df.get? j with
    | none => rfl
    | some r =>
        simp only [Option.map_some']
        rw [if_pos (by omega : 0 + j < n + 1)]
        rw [show (0 : ℕ) + j = j from by omega]
  · intro j hj
    rw [processedUpTo_get? (processFn cfg oc searchDate now) (n + 1) df 0 j]
    cases hdfj : df.get? j with
    | none => rfl
    | some r =>
        simp only [Option.map_some']
        rw [if_neg (by omega : ¬ 0 + j < n + 1)]

/-- Witness for the C3 theorem: on a two-row dataset, the checkpoint written
after the first destination holds exactly one complete pricing record and the
untouched second row. -/
theorem checkpoint_exactly_n_witness :
    ∃ snap,
      (pricingRun (processFn ⟨false, false, false, true⟩ (fun _ => wOutcome)
        "2025-11-15" "2025-11-10 12:00") [wRow1, wRow2]).2.get? 0 = some snap ∧
      snap.length = ([wRow1, wRow2] : List Row).length ∧
      snap.countP (fun r => r.pricingStatus.isSome) = 0 + 1 ∧
      (∀ j, j ≤ 0 → snap.get? j =
        (([wRow1, wRow2] : List Row).get? j).map
          (fun r => processFn ⟨false, false, false, true⟩ (fun _ => wOutcome)
            "2025-11-15" "2025-11-10 12:00" j r)) ∧
      (∀ j, 0 < j → snap.get? j = ([wRow1, wRow2] : List Row).get? j) :=
  checkpoint_exactly_n ⟨false, false, false, true⟩ (fun _ => wOutcome)
    "2025-11-15" "2025-11-10 12:00" [wRow1, wRow2] 0 (by decide) (by decide)

/-- Witness for the C5 theorem: with every source skipped, the status string
is No updates and carries no Skipped token. -/
theorem skip_flag_no_token_witness :
    "Skipped" ∉ statusParts ⟨true, true, true, true⟩
        ⟨none, none, none, none, none, false⟩ ∧
    pricingStatusString ⟨true, true, true, true⟩
        ⟨none, none, none, none, none, false⟩ = "No updates" :=
  ⟨(skip_flag_no_token ⟨true, true, true, true⟩
      ⟨none, none, none, none, none, false⟩).1,
    (skip_flag_no_token ⟨true, true, true, true⟩
      ⟨none, none, none, none, none, false⟩).2.2.2.2 rfl rfl rfl⟩

end SameDayClt
